import Mathlib

/-!
Verification development for the SemDeDup pipeline (src/semdedup.py).

The pipeline embeds documents, normalizes the embedding vectors, clusters
them with spherical k-means, and then, per cluster, sorts members by
distance to the centroid and prunes members via a pairwise cosine
similarity threshold. The surviving points are used to filter the original
dataset.

Modelling conventions:
 - Embedding vectors are lists of rationals (the claims under study concern
   index bookkeeping and threshold comparisons, not float rounding).
 - The external pairwise similarity kernel (sklearn cosine_similarity) is a
   parameter `sim : Vec → Vec → ℚ`; on unit vectors cosine similarity is the
   dot product, and the concrete inputs below use exactly that.
 - Euclidean sorting keys use the squared distance `sqDist`; argsort over
   Euclidean distances and over squared Euclidean distances produce the same
   index order because the square root is strictly monotone on nonnegatives,
   so the embedded sort is extensionally the sort of the source.
 - The per-cluster pass has two partial operations: the sklearn kernel
   rejects a 0-sample input with a ValueError before any matrix is formed,
   and indexing element 0 of a length-0 reduction would raise an IndexError.
   `M` collapses the empty-member case to `none` (all claims about kept
   members only exercise it on nonempty clusters, where it is exact);
   `M_checked` tracks the two error sources separately and shows that on an
   empty cluster the kernel's zero-sample ValueError fires first, so the
   IndexError branch of the reduction is never reached.
-/

namespace SemDeDup

/-- An embedding vector: a finite sequence of rational coordinates. -/
abbrev Vec := List ℚ

/-- Dot product of two vectors (componentwise product, summed). -/
def dot (u v : Vec) : ℚ := (List.zipWith (fun a b => a * b) u v).sum

/-- Squared Euclidean distance between two vectors. The source computes
`cdist(embeddings, centroid, "euclidean")`; sorting by the squared distance
yields the identical argsort order. -/
def sqDist (u v : Vec) : ℚ := (List.zipWith (fun a b => (a - b) ^ 2) u v).sum

/-- Ascending argsort of a list of keys (np.argsort of the distance column):
the indices 0..n-1 reordered so that their keys are nondecreasing. -/
def argsort (keys : List ℚ) : List Nat :=
  List.insertionSort (fun i j => keys.getD i 0 ≤ keys.getD j 0) (List.range keys.length)

/-- Model of `sort_by_centroid_distance` (src/semdedup.py lines 14-19):
distances of every embedding to the centroid, ascending argsort, reversal
when `descending`, and gathering of the embeddings at the sorted indices. -/
def sort_by_centroid_distance (embeddings : List Vec) (centroid : Vec)
    (descending : Bool) : List Vec :=
  let distances := embeddings.map (fun e => sqDist e centroid)
  let sorted_indices := argsort distances
  let sorted_indices := if descending then sorted_indices.reverse else sorted_indices
  sorted_indices.map (fun i => embeddings.getD i [])

/-- Model of `np.triu(pairwise_sim_matrix, k=1)` for the pairwise similarity
matrix of the members `xs` (src/semdedup.py lines 99-102): entry (i, j) is
the similarity of members i and j when i < j, and 0 elsewhere. The source
reaches this matrix only after the similarity kernel has accepted a
nonempty member list, where this total definition is exact; the kernel call
with its zero-sample validation is modelled explicitly by
`cosine_similarity` and `np_triu` below. -/
def triu_sim_matrix (sim : Vec → Vec → ℚ) (xs : List Vec) : List (List ℚ) :=
  (List.range xs.length).map fun i =>
    (List.range xs.length).map fun j =>
      if i < j then sim (xs.getD i []) (xs.getD j []) else 0

/-- Model of `np.max(m, axis=0)` on a matrix whose rows all have the same
length: the per-column maximum, an empty list when there are no rows. -/
def colMax : List (List ℚ) → List ℚ
  | [] => []
  | [r] => r
  | r :: s :: rs => List.zipWith max r (colMax (s :: rs))

/-- Model of `M = np.max(triu_sim_matrix, axis=0)[0]` (src/semdedup.py line
105): element 0 of the per-column maximum. `none` is the empty-member case,
in which the running program fails (which error fires there is tracked
precisely by `M_checked`: the kernel rejects the 0-sample input before this
reduction runs). -/
def M (sim : Vec → Vec → ℚ) (xs : List Vec) : Option ℚ :=
  (colMax (triu_sim_matrix sim xs)).head?

/-- Model of `points_to_keep_from_cluster_i = cluster_i_embeddings[M <= 1 -
epsilon]` (src/semdedup.py line 108). `M` is a numpy scalar, so the boolean
mask is a scalar: the indexing yields the whole member array when the
comparison holds and an empty selection otherwise; `none` propagates the
empty-member failure of computing `M`. -/
def points_to_keep_from_cluster_i (sim : Vec → Vec → ℚ) (epsilon : ℚ)
    (xs : List Vec) : Option (List Vec) :=
  match M sim xs with
  | none => none
  | some m => some (if m ≤ 1 - epsilon then xs else [])

/-- Model of the accumulation loop `points_to_keep.extend(...)` over all
clusters (src/semdedup.py lines 87-111): a kept cluster contributes its whole
member block (the scalar boolean index adds a leading axis, so `extend`
appends one two-dimensional block), a discarded cluster contributes nothing,
and an IndexError inside any iteration aborts the loop. -/
def points_to_keep (sim : Vec → Vec → ℚ) (epsilon : ℚ) :
    List (List Vec) → Option (List (List Vec))
  | [] => some []
  | c :: cs => do
    let kept ← points_to_keep_from_cluster_i sim epsilon c
    let rest ← points_to_keep sim epsilon cs
    return (if kept.isEmpty then rest else kept :: rest)

/-- The failure modes of the per-cluster pruning pass, distinguishing the
two partial operations of src/semdedup.py lines 99-105: the sklearn
kernel's input validation and the numpy indexing of the reduced array. -/
inductive DedupError where
  | ZeroSampleValueError
  | IndexErrorAtReduction
  deriving DecidableEq, Repr

/-- Model of the call `cosine_similarity(cluster_i_embeddings)`
(src/semdedup.py line 99) including the input validation of the external
sklearn kernel: on a 0-sample input the kernel (check_array with
ensure_min_samples=1) raises ValueError before any matrix is formed; on a
nonempty input it returns the pairwise similarity matrix, entry (i, j)
being the similarity of members i and j. -/
def cosine_similarity (sim : Vec → Vec → ℚ) (xs : List Vec) :
    Except DedupError (List (List ℚ)) :=
  if xs.isEmpty then .error .ZeroSampleValueError
  else .ok (xs.map (fun x => xs.map (fun y => sim x y)))

/-- Model of `np.triu(P, k=1)` on an arbitrary matrix P given as rows: keep
entry (i, j) when i < j, zero it otherwise. -/
def np_triu (P : List (List ℚ)) : List (List ℚ) :=
  P.enum.map (fun r => r.2.enum.map (fun e => if r.1 < e.1 then e.2 else 0))

/-- Model of src/semdedup.py lines 99-105 for one cluster with both partial
operations explicit: the similarity kernel may raise its zero-sample
ValueError, and the reduction `np.max(np.triu(P, k=1), axis=0)[0]` raises
an IndexError when the per-column maximum is a length-0 array. -/
def M_checked (sim : Vec → Vec → ℚ) (xs : List Vec) : Except DedupError ℚ :=
  match cosine_similarity sim xs with
  | .error e => .error e
  | .ok pairwise =>
    match (colMax (np_triu pairwise)).head? with
    | some m => .ok m
    | none => .error .IndexErrorAtReduction

/-- Model of the accumulation loop of src/semdedup.py lines 87-111 with the
error source of each iteration tracked by `M_checked`; the kept blocks are
accumulated as in `points_to_keep`. -/
def points_to_keep_checked (sim : Vec → Vec → ℚ) (epsilon : ℚ) :
    List (List Vec) → Except DedupError (List (List Vec))
  | [] => .ok []
  | c :: cs =>
    match M_checked sim c with
    | .error e => .error e
    | .ok m =>
      let kept := if m ≤ 1 - epsilon then c else []
      match points_to_keep_checked sim epsilon cs with
      | .error e => .error e
      | .ok rest => .ok (if kept.isEmpty then rest else kept :: rest)

/-- Model of `dataset.filter(lambda example, idx: idx in points_to_keep,
with_indices=True)` (src/semdedup.py lines 118-120). `points_to_keep` is an
array of floating point embedding blocks, and `in` on a numpy array tests
whether any scalar element equals the probe, so a document survives exactly
when its integer index equals some coordinate of some kept embedding. -/
def filtered_dataset {α : Type} (dataset : List α)
    (blocks : List (List Vec)) : List α :=
  (dataset.enum.filter (fun p => decide ((p.1 : ℚ) ∈ blocks.flatten.flatten))).map Prod.snd

/-- Modelled from the spec: the per-column-max-over-strictly-earlier-rows
reading of the reduction, the similarity vector `np.max(triu_sim_matrix,
axis=0)` without the trailing `[0]` — entry j is the maximum similarity
between member j and the members ranked strictly before it (clamped at 0 by
the zeroed lower triangle). Spec section 4.2 step 3 and section 9 declare
this the authoritative semantics. -/
def M_spec (sim : Vec → Vec → ℚ) (xs : List Vec) : List ℚ :=
  colMax (triu_sim_matrix sim xs)

/-- Index of a maximal element of a list of keys, the first one when several
are maximal; 0 on the empty list. Models the nearest-centroid lookup
performed by `index.search(embeddings, 1)` (src/semdedup.py line 83): the
index with the highest score among the K candidates. -/
def argmaxIdx (keys : List ℚ) : Nat :=
  ((keys.enum.argmax Prod.snd).map Prod.fst).getD 0

/-- Nearest-centroid assignment of one vector under the spherical (inner
product) metric of the trained index: the id of the centroid with maximal
dot product with the vector. -/
def assign_label (centroids : List Vec) (v : Vec) : Nat :=
  argmaxIdx (centroids.map (dot v))

/-- Model of `cluster_labels = I.reshape(-1)` (src/semdedup.py lines 83-84):
one nearest-centroid label per input vector. -/
def cluster_labels (centroids : List Vec) (embeddings : List Vec) : List Nat :=
  embeddings.map (assign_label centroids)

/-- The member index set of cluster i: the vector indices v with
`cluster_labels[v] == i`, the index form of the boolean mask
`cluster_labels == i` (src/semdedup.py line 91). -/
def cluster_members (labels : List Nat) (i : Nat) : List Nat :=
  (List.range labels.length).filter (fun v => labels.getD v 0 == i)

/-- Model of `cluster_i_embeddings = embeddings[cluster_labels == i]`
(src/semdedup.py line 91): the embeddings whose label is i, in input order. -/
def cluster_i_embeddings (embeddings : List Vec) (labels : List Nat)
    (i : Nat) : List Vec :=
  ((embeddings.zip labels).filter (fun p => p.2 == i)).map Prod.fst

/-- The failure taxonomy of the pipeline (spec section 7). -/
inductive PipelineError where
  | InsufficientData
  | DimensionMismatch
  | ConsistencyError
  deriving DecidableEq, Repr

/-- Model of `assert original_length == len(dataset)` (src/semdedup.py lines
51-52) followed by the rest of the pipeline: when the post-embedding dataset
length differs from the original length the assertion aborts the run (the
spec names this ConsistencyError) and the continuation — clustering and
everything after it — never runs. -/
def checked_pipeline {α β : Type} (original_length : Nat) (dataset : List α)
    (rest : List α → Except PipelineError β) : Except PipelineError β :=
  if original_length = dataset.length then rest dataset
  else .error .ConsistencyError

/-- Modelled from the spec: `faiss.Kmeans(...).train(embeddings)`
(src/semdedup.py lines 69-70) is external library code; per spec sections
4.1 and 7 the partitioner fails with InsufficientData when the number of
vectors is smaller than the requested cluster count K, and only otherwise
proceeds with the continuation (search, per-cluster deduplication). -/
def train_then {β : Type} (K : Nat) (embeddings : List Vec)
    (rest : List Vec → Except PipelineError β) : Except PipelineError β :=
  if embeddings.length < K then .error .InsufficientData
  else rest embeddings

/-- Modelled from the spec: the Result Projector contract (spec section 4.3)
— given a keep-set of original document indices, return exactly the
documents whose index is in the keep-set, in original relative order. -/
def result_projector {α : Type} (keep : List Nat) (dataset : List α) : List α :=
  (dataset.enum.filter (fun p => decide (p.1 ∈ keep))).map Prod.snd

/-! Helper lemmas. -/

/-- When every row of a nonempty matrix starts with 0, the per-column
maximum also starts with 0. -/
lemma head?_colMax_zero : ∀ rows : List (List ℚ), rows ≠ [] →
    (∀ r ∈ rows, r.head? = some 0) → (colMax rows).head? = some 0
  | [], h, _ => absurd rfl h
  | [r], _, hr => by simpa [colMax] using hr r (by simp)
  | r :: s :: rs, _, hr => by
    have h1 : r.head? = some 0 := hr r (by simp)
    have h2 : (colMax (s :: rs)).head? = some 0 :=
      head?_colMax_zero (s :: rs) (by simp) (fun t ht => hr t (by simp [ht]))
    cases r with
    | nil => simp at h1
    | cons a t =>
      cases hc : colMax (s :: rs) with
      | nil => rw [hc] at h2; simp at h2
      | cons b u =>
        rw [hc] at h2
        simp only [List.head?_cons, Option.some.injEq] at h1 h2
        simp [colMax, hc, h1, h2]

/-- Every row of the strict upper triangular similarity matrix of a
nonempty member list starts with 0: column 0 is entirely zeroed. -/
lemma head?_row_triu (sim : Vec → Vec → ℚ) (x : Vec) (xs : List Vec) :
    ∀ r ∈ triu_sim_matrix sim (x :: xs), r.head? = some 0 := by
  intro r hr
  simp only [triu_sim_matrix, List.mem_map] at hr
  obtain ⟨i, _, rfl⟩ := hr
  rw [List.head?_map]
  have : (List.range (x :: xs).length).head? = some 0 := by
    simp [List.length_cons, List.range_succ_eq_map]
  rw [this]
  simp

/-- On every nonempty cluster the scalar `M` of the source is 0: it is the
maximum of column 0 of the strict upper triangle, and that column is
entirely zeroed. -/
lemma M_cons (sim : Vec → Vec → ℚ) (x : Vec) (xs : List Vec) :
    M sim (x :: xs) = some 0 := by
  unfold M
  apply head?_colMax_zero
  · simp [triu_sim_matrix]
  · exact head?_row_triu sim x xs

/-- On the empty cluster the reduction has no element 0: `M` is the
IndexError. -/
lemma M_nil (sim : Vec → Vec → ℚ) : M sim [] = none := rfl

/-- For any threshold epsilon at most 1, the source keeps every member of
every nonempty cluster, because the scalar `M` is 0 and 0 is at most
1 - epsilon. -/
lemma keep_all_of_epsilon_le_one (sim : Vec → Vec → ℚ) {epsilon : ℚ}
    (heps : epsilon ≤ 1) (x : Vec) (xs : List Vec) :
    points_to_keep_from_cluster_i sim epsilon (x :: xs) = some (x :: xs) := by
  rw [points_to_keep_from_cluster_i, M_cons]
  simp only [if_pos (by linarith : (0 : ℚ) ≤ 1 - epsilon)]

/-- When every row of a matrix is nonempty, every row of its strict upper
triangle starts with 0: column 0 is entirely zeroed. -/
lemma head?_row_np_triu (P : List (List ℚ)) (hP : ∀ r ∈ P, r ≠ []) :
    ∀ r ∈ np_triu P, r.head? = some 0 := by
  intro r hr
  simp only [np_triu, List.mem_map] at hr
  obtain ⟨⟨i, prow⟩, hmem, rfl⟩ := hr
  have hprow : prow ∈ P := by
    rw [List.mk_mem_enum_iff_getElem?] at hmem
    exact List.getElem?_mem hmem
  obtain ⟨a, t, rfl⟩ : ∃ a t, prow = a :: t := by
    cases prow with
    | nil => exact absurd rfl (hP [] hprow)
    | cons a t => exact ⟨a, t, rfl⟩
  simp [List.enum_cons, List.head?_map]

/-- On a nonempty cluster the checked pass succeeds and agrees with the
plain model: the kernel validation passes and the reduced scalar is 0. -/
lemma M_checked_cons (sim : Vec → Vec → ℚ) (x : Vec) (xs : List Vec) :
    M_checked sim (x :: xs) = .ok 0 := by
  rw [M_checked, cosine_similarity]
  simp only [List.isEmpty_cons, Bool.false_eq_true, if_false]
  have hhead : (colMax (np_triu
      ((x :: xs).map (fun a => (x :: xs).map (fun y => sim a y))))).head? =
        some 0 := by
    apply head?_colMax_zero
    · simp [np_triu]
    · apply head?_row_np_triu
      intro r hr
      simp only [List.mem_map] at hr
      obtain ⟨a, _, rfl⟩ := hr
      simp
  rw [hhead]

/-- The IndexError branch of the checked pass is unreachable: an empty
member list is rejected by the kernel before the reduction runs, and a
nonempty member list yields a nonempty per-column maximum. -/
lemma M_checked_ne_index_error (sim : Vec → Vec → ℚ) (xs : List Vec) :
    M_checked sim xs ≠ .error DedupError.IndexErrorAtReduction := by
  cases xs with
  | nil => simp [M_checked, cosine_similarity]
  | cons x xs => rw [M_checked_cons]; simp

/-- Gathering a list at the full index range returns the list itself. -/
lemma map_getD_range (xs : List Vec) :
    (List.range xs.length).map (fun i => xs.getD i []) = xs := by
  apply List.ext_getElem
  · simp
  · intro i h1 h2
    simp [List.getD_eq_getElem, List.getElem_range, List.getElem?_eq_getElem, h2]

/-- The argmax index over a nonempty key list is a valid index. -/
lemma argmaxIdx_lt_length (keys : List ℚ) (h : keys ≠ []) :
    argmaxIdx keys < keys.length := by
  rw [argmaxIdx]
  cases ha : keys.enum.argmax Prod.snd with
  | none =>
    rw [List.argmax_eq_none, List.enum_eq_nil] at ha
    exact absurd ha h
  | some m =>
    obtain ⟨i, x⟩ := m
    have hm : (i, x) ∈ keys.enum := List.argmax_mem ha
    rw [List.mk_mem_enum_iff_getElem?] at hm
    simp only [Option.map_some', Option.getD_some]
    exact (List.getElem?_eq_some.mp hm).1

/-- Membership in a cluster member set means: a valid vector index whose
label is the cluster id. -/
lemma mem_cluster_members (labels : List Nat) (i v : Nat) :
    v ∈ cluster_members labels i ↔ v < labels.length ∧ labels.getD v 0 = i := by
  rw [cluster_members, List.mem_filter, List.mem_range]
  simp

/-! Claim theorems. -/

/-- C1: falsified on the code — the source reduces the similarity matrix to
the single scalar `np.max(triu_sim_matrix, axis=0)[0]`, the maximum of
column 0, which is always 0; it does not compute a per-member M(j). On two
unit members with cosine similarity 24/25 = 0.96 and epsilon = 0.09
(threshold 0.91), the per-column maximum of the second member is 0.96 >
0.91, so the specified semantics discards it, yet the code computes M = 0
and keeps both members. -/
theorem C1_scalar_reduction_keeps_near_duplicate :
    M dot [[(3:ℚ)/5, 4/5], [4/5, 3/5]] = some 0 ∧
    points_to_keep_from_cluster_i dot (9/100) [[(3:ℚ)/5, 4/5], [4/5, 3/5]] =
      some [[(3:ℚ)/5, 4/5], [4/5, 3/5]] ∧
    (M_spec dot [[(3:ℚ)/5, 4/5], [4/5, 3/5]]).getD 1 0 = 24/25 ∧
    (1 : ℚ) - 9/100 < 24/25 := by
  refine ⟨M_cons dot _ _, keep_all_of_epsilon_le_one dot (by norm_num) _ _, ?_, by norm_num⟩
  have h : (M_spec dot [[(3:ℚ)/5, 4/5], [4/5, 3/5]]).getD 1 0 =
      max (dot [(3:ℚ)/5, 4/5] [(4:ℚ)/5, 3/5]) 0 := rfl
  have hdot : dot [(3:ℚ)/5, 4/5] [(4:ℚ)/5, 3/5] = 24/25 := by norm_num [dot]
  rw [h, hdot, max_eq_left (by norm_num)]

/-- C2: falsified on the code — `points_to_keep` accumulates embedding
vectors, not original indices, and `idx in points_to_keep` tests the integer
index against floating point coordinates. Here the single cluster keeps both
of its members, the spec projector applied to the keep-set {0, 1} returns
both documents, yet the code returns the empty dataset because no coordinate
of any kept embedding equals 0 or 1. -/
theorem C2_projection_compares_indices_to_coordinates :
    points_to_keep dot (9/100) [[[(3:ℚ)/5, 4/5], [4/5, 3/5]]] =
      some [[[(3:ℚ)/5, 4/5], [4/5, 3/5]]] ∧
    filtered_dataset ["a", "b"] [[[(3:ℚ)/5, 4/5], [4/5, 3/5]]] = [] ∧
    result_projector [0, 1] ["a", "b"] = ["a", "b"] := by
  refine ⟨?_, ?_, by decide⟩
  · rw [points_to_keep, keep_all_of_epsilon_le_one dot (by norm_num)]
    rfl
  · simp only [filtered_dataset, List.flatten]
    norm_num [List.enum, List.enumFrom, List.filter, List.mem_cons]

/-- C3: with epsilon at its upper bound 1 (and in fact for every epsilon at
most 1), the accumulation over any run of nonempty clusters keeps every
member of every cluster: the keep-set is the full vector set. -/
theorem C3_epsilon_one_keeps_everything (sim : Vec → Vec → ℚ) (epsilon : ℚ)
    (clusters : List (List Vec)) (hne : ∀ c ∈ clusters, c ≠ [])
    (heps : epsilon ≤ 1) :
    points_to_keep sim epsilon clusters = some clusters := by
  induction clusters with
  | nil => rfl
  | cons c cs ih =>
    obtain ⟨x, xs, rfl⟩ : ∃ x xs, c = x :: xs := by
      cases c with
      | nil => exact absurd rfl (hne [] (by simp))
      | cons x xs => exact ⟨x, xs, rfl⟩
    rw [points_to_keep, keep_all_of_epsilon_le_one sim heps x xs,
      ih (fun t ht => hne t (by simp [ht]))]
    simp

/-- Witness for C3 at a concrete input. -/
theorem C3_epsilon_one_keeps_everything_witness :
    (∀ c ∈ [[[(1:ℚ), 0]]], c ≠ ([] : List Vec)) ∧ (1 : ℚ) ≤ 1 ∧
    points_to_keep dot 1 [[[(1:ℚ), 0]]] = some [[[(1:ℚ), 0]]] :=
  ⟨by decide, le_refl 1,
    C3_epsilon_one_keeps_everything dot 1 [[[(1:ℚ), 0]]] (by decide) (le_refl 1)⟩

/-- C4: for a fixed cluster and thresholds eps1 < eps2 in (0, 1), every
member kept at eps2 is kept at eps1 — equivalently, every member discarded
at eps1 is discarded at eps2: the keep decision `m ≤ 1 - epsilon` is
antitone in epsilon. -/
theorem C4_keep_set_antitone_in_epsilon (sim : Vec → Vec → ℚ) (xs : List Vec)
    (eps1 eps2 : ℚ) (h0 : 0 < eps1) (h12 : eps1 < eps2) (h1 : eps2 < 1)
    (ys1 ys2 : List Vec)
    (hk1 : points_to_keep_from_cluster_i sim eps1 xs = some ys1)
    (hk2 : points_to_keep_from_cluster_i sim eps2 xs = some ys2) :
    ∀ v ∈ ys2, v ∈ ys1 := by
  unfold points_to_keep_from_cluster_i at hk1 hk2
  cases hM : M sim xs with
  | none => rw [hM] at hk1; exact absurd hk1 (by simp)
  | some m =>
    rw [hM] at hk1 hk2
    simp only [Option.some.injEq] at hk1 hk2
    subst hk1; subst hk2
    intro v hv
    by_cases h : m ≤ 1 - eps2
    · rw [if_pos h] at hv
      rw [if_pos (by linarith)]
      exact hv
    · rw [if_neg h] at hv
      simp at hv

/-- Witness for C4 at a concrete input. -/
theorem C4_keep_set_antitone_in_epsilon_witness :
    (0:ℚ) < mkRat 1 4 ∧ mkRat 1 4 < mkRat 1 2 ∧ mkRat 1 2 < 1 ∧
    points_to_keep_from_cluster_i dot (mkRat 1 4) [[(1:ℚ), 0]] =
      some [[(1:ℚ), 0]] ∧
    points_to_keep_from_cluster_i dot (mkRat 1 2) [[(1:ℚ), 0]] =
      some [[(1:ℚ), 0]] ∧
    ∀ v ∈ [[(1:ℚ), 0]], v ∈ [[(1:ℚ), 0]] :=
  ⟨by decide, by decide, by decide,
    keep_all_of_epsilon_le_one dot (by decide) [(1:ℚ), 0] [],
    keep_all_of_epsilon_le_one dot (by decide) [(1:ℚ), 0] [],
    C4_keep_set_antitone_in_epsilon dot [[(1:ℚ), 0]] (mkRat 1 4) (mkRat 1 2)
      (by decide) (by decide) (by decide) [[(1:ℚ), 0]] [[(1:ℚ), 0]]
      (keep_all_of_epsilon_le_one dot (by decide) [(1:ℚ), 0] [])
      (keep_all_of_epsilon_le_one dot (by decide) [(1:ℚ), 0] [])⟩

/-- C5: for every nonempty cluster and every epsilon in (0, 1), the
first-ranked member is in the keep-set (the code in fact keeps the whole
cluster, since its scalar M is 0). -/
theorem C5_first_ranked_member_kept (sim : Vec → Vec → ℚ) (x : Vec)
    (xs : List Vec) (epsilon : ℚ) (h0 : 0 < epsilon) (h1 : epsilon < 1) :
    ∃ ys, points_to_keep_from_cluster_i sim epsilon (x :: xs) = some ys ∧
      x ∈ ys :=
  ⟨x :: xs, keep_all_of_epsilon_le_one sim (le_of_lt h1) x xs, by simp⟩

/-- Witness for C5 at a concrete input. -/
theorem C5_first_ranked_member_kept_witness :
    (0:ℚ) < mkRat 9 100 ∧ mkRat 9 100 < 1 ∧
    ∃ ys, points_to_keep_from_cluster_i dot (mkRat 9 100)
        [[mkRat 3 5, mkRat 4 5], [mkRat 4 5, mkRat 3 5]] = some ys ∧
      [mkRat 3 5, mkRat 4 5] ∈ ys :=
  ⟨by decide, by decide,
    C5_first_ranked_member_kept dot [mkRat 3 5, mkRat 4 5]
      [[mkRat 4 5, mkRat 3 5]] (mkRat 9 100) (by decide) (by decide)⟩

/-- C6: sorting a cluster by centroid distance with descending=True returns
a permutation of the members in which the Euclidean distances to the
centroid are nonincreasing — the farthest-from-centroid member comes first.
The Euclidean distance is the square root of `sqDist`; the sort itself
compares `sqDist` keys, which orders identically. -/
theorem C6_sort_is_descending_permutation (embeddings : List Vec)
    (centroid : Vec) :
    (sort_by_centroid_distance embeddings centroid true).Perm embeddings ∧
    (sort_by_centroid_distance embeddings centroid true).Pairwise
      (fun u v => Real.sqrt ((sqDist v centroid : ℚ) : ℝ) ≤
        Real.sqrt ((sqDist u centroid : ℚ) : ℝ)) := by
  have hdef : sort_by_centroid_distance embeddings centroid true =
      ((argsort (embeddings.map (fun e => sqDist e centroid))).reverse).map
        (fun i => embeddings.getD i []) := rfl
  have hkl : (embeddings.map (fun e => sqDist e centroid)).length =
      embeddings.length := List.length_map _ _
  have hperm : ((argsort (embeddings.map (fun e => sqDist e centroid))).reverse).Perm
      (List.range embeddings.length) := by
    refine (List.reverse_perm _).trans ?_
    rw [argsort, ← hkl]
    exact List.perm_insertionSort _ _
  constructor
  · rw [hdef]
    have := hperm.map (fun i => embeddings.getD i [])
    rwa [map_getD_range] at this
  · rw [hdef, List.pairwise_map]
    have hmem : ∀ i ∈ (argsort (embeddings.map (fun e => sqDist e centroid))).reverse,
        i < embeddings.length := by
      intro i hi
      exact List.mem_range.mp (hperm.mem_iff.mp hi)
    have hkey : ∀ i, i < embeddings.length →
        (embeddings.map (fun e => sqDist e centroid)).getD i 0 =
          sqDist (embeddings.getD i []) centroid := by
      intro i hi
      rw [List.getD_eq_getElem _ _ (by simpa using hi),
        List.getD_eq_getElem _ _ hi, List.getElem_map]
    have hsorted : ((argsort (embeddings.map (fun e => sqDist e centroid))).reverse).Pairwise
        (fun i j => (embeddings.map (fun e => sqDist e centroid)).getD j 0 ≤
          (embeddings.map (fun e => sqDist e centroid)).getD i 0) := by
      rw [List.pairwise_reverse]
      haveI : IsTotal Nat (fun i j =>
          (embeddings.map (fun e => sqDist e centroid)).getD i 0 ≤
            (embeddings.map (fun e => sqDist e centroid)).getD j 0) :=
        ⟨fun a b => le_total _ _⟩
      haveI : IsTrans Nat (fun i j =>
          (embeddings.map (fun e => sqDist e centroid)).getD i 0 ≤
            (embeddings.map (fun e => sqDist e centroid)).getD j 0) :=
        ⟨fun a b c hab hbc => le_trans hab hbc⟩
      exact List.sorted_insertionSort _ _
    refine hsorted.imp_of_mem ?_
    intro i j hi hj hle
    rw [hkey i (hmem i hi), hkey j (hmem j hj)] at hle
    exact Real.sqrt_le_sqrt (by exact_mod_cast hle)

/-- C7: the per-cluster member sets form a hard partition of the index
range: for any nonempty centroid set, distinct clusters are disjoint, and a
vector index belongs to the range [0, N) exactly when it belongs to some
cluster with id below K — every vector gets exactly one label in [0, K). -/
theorem C7_hard_partition (embeddings centroids : List Vec)
    (hc : centroids ≠ []) :
    (∀ i j, i ≠ j → ∀ v,
      v ∈ cluster_members (cluster_labels centroids embeddings) i →
      v ∉ cluster_members (cluster_labels centroids embeddings) j) ∧
    (∀ v, v ∈ List.range embeddings.length ↔
      ∃ i, i < centroids.length ∧
        v ∈ cluster_members (cluster_labels centroids embeddings) i) := by
  have hlen : (cluster_labels centroids embeddings).length = embeddings.length :=
    List.length_map _ _
  constructor
  · intro i j hij v hvi hvj
    rw [mem_cluster_members] at hvi hvj
    exact hij (hvi.2 ▸ hvj.2)
  · intro v
    rw [List.mem_range]
    constructor
    · intro hv
      refine ⟨(cluster_labels centroids embeddings).getD v 0, ?_, ?_⟩
      · have hv' : v < (cluster_labels centroids embeddings).length := hlen ▸ hv
        rw [List.getD_eq_getElem _ _ hv']
        simp only [cluster_labels, List.getElem_map]
        have hk : (centroids.map (dot embeddings[v])).length = centroids.length :=
          List.length_map _ _
        rw [assign_label, ← hk]
        exact argmaxIdx_lt_length _ (by simpa using hc)
      · rw [mem_cluster_members]
        exact ⟨hlen ▸ hv, rfl⟩
    · rintro ⟨i, _, hv⟩
      rw [mem_cluster_members] at hv
      exact hlen ▸ hv.1

/-- Witness for C7 at a concrete input. -/
theorem C7_hard_partition_witness :
    ([[(1:ℚ), 0], [0, 1]] : List Vec) ≠ [] ∧
    ((∀ i j, i ≠ j → ∀ v,
      v ∈ cluster_members (cluster_labels [[(1:ℚ), 0], [0, 1]] [[(1:ℚ), 0]]) i →
      v ∉ cluster_members (cluster_labels [[(1:ℚ), 0], [0, 1]] [[(1:ℚ), 0]]) j) ∧
    (∀ v, v ∈ List.range ([[(1:ℚ), 0]] : List Vec).length ↔
      ∃ i, i < ([[(1:ℚ), 0], [0, 1]] : List Vec).length ∧
        v ∈ cluster_members (cluster_labels [[(1:ℚ), 0], [0, 1]] [[(1:ℚ), 0]]) i)) :=
  ⟨by decide, C7_hard_partition [[(1:ℚ), 0]] [[(1:ℚ), 0], [0, 1]] (by decide)⟩

/-- C8: when the number of vectors is smaller than the requested cluster
count K, training fails with InsufficientData, for every possible
continuation — clustering never proceeds. -/
theorem C8_insufficient_data_fails (K : Nat) (embeddings : List Vec)
    {β : Type} (rest : List Vec → Except PipelineError β)
    (h : embeddings.length < K) :
    train_then K embeddings rest = .error .InsufficientData := by
  rw [train_then, if_pos h]

/-- Witness for C8 at a concrete input. -/
theorem C8_insufficient_data_fails_witness :
    ([[(1:ℚ), 0]] : List Vec).length < 2 ∧
    train_then 2 [[(1:ℚ), 0]] (fun e => .ok e) =
      .error PipelineError.InsufficientData :=
  ⟨by decide, C8_insufficient_data_fails 2 [[(1:ℚ), 0]] _ (by decide)⟩

/-- C9: when the post-embedding dataset length differs from the original
document count, the pipeline aborts with the consistency error, for every
possible continuation — clustering never runs on misaligned indices. -/
theorem C9_length_mismatch_aborts {α β : Type} (original_length : Nat)
    (dataset : List α) (rest : List α → Except PipelineError β)
    (h : original_length ≠ dataset.length) :
    checked_pipeline original_length dataset rest =
      .error PipelineError.ConsistencyError := by
  rw [checked_pipeline, if_neg h]

/-- Witness for C9 at a concrete input. -/
theorem C9_length_mismatch_aborts_witness :
    (3 : Nat) ≠ (["a", "b"] : List String).length ∧
    checked_pipeline 3 ["a", "b"] (fun d => .ok d.length) =
      .error PipelineError.ConsistencyError :=
  ⟨by decide, C9_length_mismatch_aborts 3 ["a", "b"] _ (by decide)⟩

/-- C10 counterexample: on an empty member list the pruning pass fails at
the similarity kernel call with the zero-sample ValueError — before any
similarity matrix or per-column maximum exists — and not with the
index-out-of-range error the claim names: the IndexError branch of the
reduction is never reached. -/
theorem C10_empty_cluster_error_is_zero_sample_not_index :
    M_checked dot [] = .error DedupError.ZeroSampleValueError ∧
    M_checked dot [] ≠ .error DedupError.IndexErrorAtReduction :=
  ⟨rfl, M_checked_ne_index_error dot []⟩

/-- C10 amended: a valid cluster assignment can leave a cluster empty —
here one vector, K = 2, the single label 0 in range, cluster 1 without
members — and on the empty member list the per-cluster pass raises the
sklearn kernel's zero-sample ValueError (at the cosine_similarity call,
before the similarity matrix or its reduction exists) instead of skipping
the cluster, and the whole accumulation loop aborts with it: the pruning
loop is not total over the partitioner outputs the spec permits. -/
theorem C10_empty_cluster_aborts_with_zero_sample_error :
    (∀ l ∈ [0], l < 2) ∧
    cluster_i_embeddings [[(1:ℚ), 0]] [0] 1 = [] ∧
    M_checked dot [] = .error DedupError.ZeroSampleValueError ∧
    points_to_keep_checked dot (mkRat 9 100) [[[(1:ℚ), 0]], []] =
      .error DedupError.ZeroSampleValueError := by
  refine ⟨by decide, by decide, rfl, ?_⟩
  rw [points_to_keep_checked, M_checked_cons]
  rfl

end SemDeDup
